import Mathlib

/-!
Verification of the web-monitoring-processing archive ingestion engine.

This file gives a shallow embedding, in Lean 4, of the parts of
`web_monitoring/internetarchive.py` and `web_monitoring/cli.py` that the
verified properties talk about, and proves or refutes each property.

Modelling conventions:
* Python strings are modelled as `String` or `List Char`; Python `str.lower`
  and `str.casefold` are modelled by the ASCII `Char.toLower` (every input
  appearing in the theorems below is plain ASCII).
* Python `datetime` values are modelled by `PyDateTime`, and subtraction of
  two datetimes by the difference of their linearizations in seconds
  (`dtToSeconds`), which agrees with the exact calendar arithmetic of
  Python `timedelta` for in-range dates.
* Machine floats never occur in the modelled code paths; the float division
  in `merge_worker_summaries` is modelled as exact division in `ℚ`.
-/

/-! ## Basic character and string helpers -/

/-- ASCII word character, modelling the regex class `\w` as used by
`INDEX_PAGE_EXPRESSION` (`cli.py` line 28) on the ASCII inputs considered. -/
def isWordChar (c : Char) : Bool :=
  c.isAlpha || c.isDigit || c == '_'

/-- Case-insensitive equality of strings, ASCII model of comparing the
results of Python `str.lower()` / `str.casefold()`. -/
def lowerEqCI (a b : String) : Bool :=
  a.data.map Char.toLower == b.data.map Char.toLower

/-- Lookup in an HTTP header list. Models lookup in a requests
`CaseInsensitiveDict` (header names compare case-insensitively). -/
def headerGet (hs : List (String × String)) (name : String) : Option String :=
  (hs.find? (fun kv => lowerEqCI kv.1 name)).map (·.2)

/-- Membership test `name in response.headers` for the header list model. -/
def hasHeader (hs : List (String × String)) (name : String) : Bool :=
  (headerGet hs name).isSome

/-- Model of the Python substring test `needle in hay`. -/
def containsSubstring (needle : List Char) : List Char → Bool
  | [] => needle == []
  | c :: rest => needle == (c :: rest).take needle.length || containsSubstring needle rest

/-! ## cli._rough_url_key (cli.py lines 353-364)

`INDEX_PAGE_EXPRESSION = re.compile(r"index(\.\w+)?$")` and

    rough_key = url_key.lower()
    rough_key = rough_key.split("?", 1)[0]
    rough_key = rough_key.split("#", 1)[0]
    rough_key = INDEX_PAGE_EXPRESSION.sub("", rough_key)
    if rough_key.endswith("/"):
        rough_key = rough_key[:-1]
-/

/-- Does the whole character list match `index(\.\w+)?$`, i.e. is it exactly
`index` or `index.` followed by one or more word characters? -/
def matchesIndexEnd : List Char → Bool
  | 'i' :: 'n' :: 'd' :: 'e' :: 'x' :: rest =>
    match rest with
    | [] => true
    | '.' :: w => decide (w ≠ []) && w.all isWordChar
    | _ => false
  | _ => false

/-- Model of `INDEX_PAGE_EXPRESSION.sub("", k)`: the pattern is anchored at
the end of the string, so `re.sub` deletes the suffix starting at the
leftmost position whose remainder matches `index(\.\w+)?$`, and leaves the
string unchanged when no position matches. -/
def stripIndexEnd : List Char → List Char
  | [] => []
  | c :: cs => if matchesIndexEnd (c :: cs) then [] else c :: stripIndexEnd cs

/-- Model of `s.split(sep, 1)[0]`: the part of `s` before the first
occurrence of the (single-character) separator. -/
def beforeFirst (sep : Char) (s : List Char) : List Char :=
  s.takeWhile (fun c => c != sep)

/-- Model of `if k.endswith("/"): k = k[:-1]`. -/
def dropTrailingSlash (l : List Char) : List Char :=
  if l.getLast? = some '/' then l.dropLast else l

/-- Character-level model of `cli._rough_url_key`. -/
def roughUrlKeyChars (l : List Char) : List Char :=
  dropTrailingSlash (stripIndexEnd (beforeFirst '#' (beforeFirst '?' (l.map Char.toLower))))

/-- Model of `cli._rough_url_key` on strings. -/
def rough_url_key (s : String) : String :=
  String.mk (roughUrlKeyChars s.data)

/-! ## internetarchive redundant-port canonicalization
(internetarchive.py lines 73-74 and 436-438)

`REDUNDANT_HTTP_PORT = re.compile(r"^(http://[^:/]+):80(.*)$")` and the
HTTPS analogue with `:443`; search applies

    clean_url = REDUNDANT_HTTPS_PORT.sub(r"\1\2", REDUNDANT_HTTP_PORT.sub(r"\1\2", data.url))
-/

/-- Model of one anchored substitution `^(<scheme>[^:/]+):<port>(.*)$` →
`\1\2`. The character class `[^:/]+` is deterministic here because the
following literal starts with `:`, which the class can never consume. -/
def stripPort (scheme port : List Char) (s : List Char) : List Char :=
  if s.take scheme.length = scheme then
    let rest := s.drop scheme.length
    let host := rest.takeWhile (fun c => c != ':' && c != '/')
    let rest2 := rest.drop host.length
    if host ≠ [] ∧ rest2.take port.length = port then
      scheme ++ host ++ rest2.drop port.length
    else s
  else s

/-- Model of the two chained substitutions applied to `data.url` in
`WaybackClient.search`: first the HTTP rule, then the HTTPS rule. -/
def canonicalize_redundant_port (s : String) : String :=
  String.mk (stripPort "https://".data ":443".data
    (stripPort "http://".data ":80".data s.data))

/-! ## cli worker summaries (cli.py lines 78-125 and 153-172) -/

/-- Counter record produced by `cli.worker_summary()`. -/
structure WorkerSummary where
  total : Nat
  success : Nat
  playback : Nat
  missing : Nat
  unknown : Nat
deriving DecidableEq

/-- Model of `cli.worker_summary()`. -/
def worker_summary : WorkerSummary :=
  ⟨0, 0, 0, 0, 0⟩

/-- Merged summary with the derived percentage fields added by
`cli.merge_worker_summaries`. The Python float divisions are modelled as
exact rational divisions. -/
structure MergedSummary where
  total : Nat
  success : Nat
  playback : Nat
  missing : Nat
  unknown : Nat
  success_pct : ℚ
  playback_pct : ℚ
  missing_pct : ℚ
  unknown_pct : ℚ
deriving DecidableEq

/-- The summing loop of `cli.merge_worker_summaries`: add every counter of
every summary into a fresh `worker_summary()`. -/
def sumSummaries (summaries : List WorkerSummary) : WorkerSummary :=
  summaries.foldl
    (fun acc s => ⟨acc.total + s.total, acc.success + s.success,
      acc.playback + s.playback, acc.missing + s.missing,
      acc.unknown + s.unknown⟩)
    worker_summary

/-- Model of `cli.merge_worker_summaries`: sum each counter over the list,
then derive the four percentage fields, which are `v / total` when the
merged `total` is truthy (nonzero) and `0.0` otherwise. -/
def merge_worker_summaries (summaries : List WorkerSummary) : MergedSummary :=
  if (sumSummaries summaries).total ≠ 0 then
    ⟨(sumSummaries summaries).total, (sumSummaries summaries).success,
      (sumSummaries summaries).playback, (sumSummaries summaries).missing,
      (sumSummaries summaries).unknown,
      ((sumSummaries summaries).success : ℚ) / ((sumSummaries summaries).total : ℚ),
      ((sumSummaries summaries).playback : ℚ) / ((sumSummaries summaries).total : ℚ),
      ((sumSummaries summaries).missing : ℚ) / ((sumSummaries summaries).total : ℚ),
      ((sumSummaries summaries).unknown : ℚ) / ((sumSummaries summaries).total : ℚ)⟩
  else
    ⟨(sumSummaries summaries).total, (sumSummaries summaries).success,
      (sumSummaries summaries).playback, (sumSummaries summaries).missing,
      (sumSummaries summaries).unknown, 0, 0, 0, 0⟩

/-! ## cli._filter_unchanged_versions (cli.py lines 261-270) -/

/-- The two fields of an importable version dict that
`_filter_unchanged_versions` consults; all other fields are irrelevant to
the filter and are omitted from the model. -/
structure VersionDoc where
  page_url : String
  version_hash : String
deriving DecidableEq

/-- Lookup modelling `last_hashes.get(key)` on the association-list model of
the dict (the most recent binding for a key is the first one). -/
def dictGet (k : String) : List (String × String) → Option String
  | [] => none
  | (k', v) :: rest => if k' = k then some v else dictGet k rest

/-- Model of the loop of `_filter_unchanged_versions`, with the mutable
`last_hashes` dict threaded explicitly: yield a version exactly when
`last_hashes.get(page_url) != version_hash`, updating the dict on yield. -/
def filterUnchangedFrom (m : List (String × String)) : List VersionDoc → List VersionDoc
  | [] => []
  | v :: rest =>
    if dictGet v.page_url m ≠ some v.version_hash then
      v :: filterUnchangedFrom ((v.page_url, v.version_hash) :: m) rest
    else
      filterUnchangedFrom m rest

/-- Model of `cli._filter_unchanged_versions` (the dict starts empty). -/
def filter_unchanged_versions (versions : List VersionDoc) : List VersionDoc :=
  filterUnchangedFrom [] versions

/-! ## WaybackSession retry model (internetarchive.py lines 196-260)

The HTTP transport is modelled by a function from the attempt number (the
value of the `retries` counter when the attempt is made, starting at 0) to
the outcome of that attempt: either a response or a raised transport error.
-/

/-- The parts of a requests `Response` that the modelled code reads. -/
structure HttpResponse where
  url : String
  status : Nat
  headers : List (String × String)
  nextUrl : Option String
deriving DecidableEq

/-- Transport-level errors, one constructor per exception class named in
`internetarchive.py` lines 27-37. The Python classes are modelled as
disjoint; only the class tests performed by the source matter here. -/
inductive TransportError where
  | connectTimeout
  | maxRetry
  | readTimeout
  | proxy
  | retryExc
  | timeoutExc
  | connection (text : String)
  | other (text : String)
deriving DecidableEq

/-- Outcome of one low-level `super().send(...)` call. -/
inductive AttemptOutcome where
  | success (r : HttpResponse)
  | failure (e : TransportError)

/-- `WaybackSession.retryable_statuses` (line 197). -/
def retryable_statuses : List Nat :=
  [413, 421, 429, 500, 502, 503, 504, 599]

/-- Membership in `WaybackSession.retryable_errors` (lines 199-200). -/
def isRetryableError : TransportError → Bool
  | .connectTimeout => true
  | .maxRetry => true
  | .readTimeout => true
  | .proxy => true
  | .retryExc => true
  | .timeoutExc => true
  | _ => false

/-- Membership in `WaybackSession.handleable_errors` (line 201): the
retryable errors together with generic connection errors. -/
def isHandleableError : TransportError → Bool
  | .connection _ => true
  | e => isRetryableError e

/-- Model of `WaybackSession.should_retry` (lines 245-250): a response that
carries a `Memento-Datetime` header is never retried; otherwise retry
exactly when the status code is in the retryable set. -/
def should_retry (r : HttpResponse) : Bool :=
  if hasHeader r.headers "Memento-Datetime" then false
  else retryable_statuses.contains r.status

/-- Model of `WaybackSession.should_retry_error` (lines 252-260). -/
def should_retry_error (e : TransportError) : Bool :=
  if isRetryableError e then true
  else
    match e with
    | .connection text =>
      containsSubstring "NewConnectionError".data text.data
        || containsSubstring "Max retries".data text.data
    | _ => false

/-- Events observable from one `WaybackSession.send` call: the attempts it
performs (numbered by the `retries` counter) and the `time.sleep` calls it
makes, in order. -/
inductive SendEvent where
  | attempt (n : Nat)
  | sleep (seconds : Nat)
deriving DecidableEq

/-- Result of `WaybackSession.send`: a returned response, a raised
`WaybackRetryError(retries, total_time, error)`, or an unhandled transport
error propagating out. In the source `total_time` is initialized to 0 and
never updated (lines 224, 234), so the second field of `retryError` is
always 0 in any reachable result. -/
inductive SendResult where
  | response (r : HttpResponse)
  | retryError (retries : Nat) (totalTime : Nat) (cause : TransportError)
  | raised (e : TransportError)
deriving DecidableEq

/-- Is an event an attempt? -/
def isAttemptEvent : SendEvent → Bool
  | .attempt _ => true
  | .sleep _ => false

/-- The seconds of a sleep event, if it is one. -/
def sleepSeconds : SendEvent → Option Nat
  | .sleep s => some s
  | .attempt _ => none

/-- The retry loop of `WaybackSession.send` (lines 224-243), with the
remaining retry budget made explicit: `left` stands for
`maximum - retries`, so the source test `retries >= maximum` is
represented by `left` being zero, and each loop iteration decrements
`left` while incrementing `retries`. When the budget is exhausted, a
response is returned regardless of `should_retry`, and a handleable error
raises `WaybackRetryError(retries, total_time, error)` before
`should_retry_error` is consulted, exactly as in the source; `total_time`
is initialized to 0 and never updated there, hence the literal 0. The
returned event list records the attempts made and the sleeps performed
(`backoff * 2 ** (retries - 1)` seconds after a failed attempt with
`retries > 0`). -/
def sendGo (transport : Nat → AttemptOutcome) (backoff : Nat) :
    Nat → Nat → SendResult × List SendEvent
  | 0, retries =>
    match transport retries with
    | .success result => (.response result, [.attempt retries])
    | .failure error =>
      if isHandleableError error = false then (.raised error, [.attempt retries])
      else (.retryError retries 0 error, [.attempt retries])
  | left + 1, retries =>
    match transport retries with
    | .success result =>
      if should_retry result = false then (.response result, [.attempt retries])
      else
        ((sendGo transport backoff left (retries + 1)).1,
          .attempt retries ::
            ((if 0 < retries then [.sleep (backoff * 2 ^ (retries - 1))] else [])
              ++ (sendGo transport backoff left (retries + 1)).2))
    | .failure error =>
      if isHandleableError error = false then (.raised error, [.attempt retries])
      else if should_retry_error error = false then (.raised error, [.attempt retries])
      else
        ((sendGo transport backoff left (retries + 1)).1,
          .attempt retries ::
            ((if 0 < retries then [.sleep (backoff * 2 ^ (retries - 1))] else [])
              ++ (sendGo transport backoff left (retries + 1)).2))

/-- Model of `WaybackSession.send` for a session constructed with the given
`retries` (the maximum) and `backoff` parameters. -/
def waybackSend (transport : Nat → AttemptOutcome) (retries backoff : Nat) :
    SendResult × List SendEvent :=
  sendGo transport backoff retries 0

/-- The event trace of a run that keeps retrying from the state with
counter `r` and `left` retries remaining: attempt `r`, then (when `r > 0`)
a sleep of `backoff * 2 ^ (r - 1)` seconds, and so on until the final
attempt `r + left`, which is not followed by a sleep. -/
def goTrace (backoff : Nat) : Nat → Nat → List SendEvent
  | r, 0 => [.attempt r]
  | r, left + 1 =>
    .attempt r ::
      ((if 0 < r then [.sleep (backoff * 2 ^ (r - 1))] else [])
        ++ goTrace backoff (r + 1) left)

/-- The full expected trace of an exhausted send: attempts 0 through
`maximum`, with a sleep of `backoff * 2 ^ (k - 1)` seconds between attempt
`k` and attempt `k + 1` for every `k ≥ 1`, and no sleep between attempt 0
and attempt 1. -/
def exhaustedTrace (maximum backoff : Nat) : List SendEvent :=
  goTrace backoff 0 maximum

/-! ## Datetime model

Python `datetime` values (to second precision, as produced by
`datetime.strptime(ts, "%Y%m%d%H%M%S")`) and their subtraction. Subtraction
of two datetimes yields an exact `timedelta`; its `.seconds` attribute is
the seconds-within-a-day component, i.e. the total difference in seconds
modulo 86400 — not `total_seconds()`. -/

/-- Python `datetime` restricted to what `strptime("%Y%m%d%H%M%S")` can
produce. -/
structure PyDateTime where
  year : Nat
  month : Nat
  day : Nat
  hour : Nat
  minute : Nat
  second : Nat
deriving DecidableEq

/-- Leap-year test of the proleptic Gregorian calendar used by Python
`datetime`. -/
def isLeapYear (y : Nat) : Bool :=
  y % 4 == 0 && (y % 100 != 0 || y % 400 == 0)

/-- Number of days in a month of the proleptic Gregorian calendar. -/
def daysInMonth (y m : Nat) : Nat :=
  if m = 2 then (if isLeapYear y then 29 else 28)
  else if m = 4 ∨ m = 6 ∨ m = 9 ∨ m = 11 then 30
  else 31

/-- Days from 1970-01-01 of a proleptic Gregorian civil date (the standard
era-based conversion; `Int` division truncates toward zero exactly as the
reference algorithm expects). -/
def daysFromCivil (y m d : Int) : Int :=
  let y2 := if m ≤ 2 then y - 1 else y
  let era := (if 0 ≤ y2 then y2 else y2 - 399) / 400
  let yoe := y2 - era * 400
  let doy := (153 * (m + (if 2 < m then -3 else 9)) + 2) / 5 + d - 1
  let doe := yoe * 365 + yoe / 4 - yoe / 100 + doy
  era * 146097 + doe - 719468

/-- Linearization of a datetime in seconds since the epoch; differences of
these values model Python `timedelta` subtraction exactly. -/
def dtToSeconds (t : PyDateTime) : Int :=
  daysFromCivil t.year t.month t.day * 86400
    + t.hour * 3600 + t.minute * 60 + t.second

/-- Model of `abs(target_date - original_date).seconds <= window`
(internetarchive.py line 619): `.seconds` is the seconds component of the
absolute timedelta, that is the total difference modulo 86400. -/
def mementoWindowCheck (targetDate origDate : PyDateTime) (window : Nat) : Bool :=
  (dtToSeconds targetDate - dtToSeconds origDate).natAbs % 86400 ≤ window

/-- The default `redirect_target_window` of `WaybackClient.get_memento`
(internetarchive.py line 550). -/
def redirect_target_window_default : Nat :=
  12 * 60 * 60

/-- Numeric value of a list of decimal digits. -/
def digitsVal (l : List Char) : Nat :=
  l.foldl (fun a c => a * 10 + (c.toNat - 48)) 0

/-- Model of `datetime.strptime(ts, "%Y%m%d%H%M%S")` on the canonical
14-digit timestamps produced by the memento URL pattern, including the
range validation `strptime` performs; out-of-range fields raise
`ValueError` in Python, modelled as `none`. -/
def parseTimestamp14 (l : List Char) : Option PyDateTime :=
  if l.length = 14 ∧ l.all Char.isDigit then
    let y := digitsVal (l.take 4)
    let mo := digitsVal ((l.drop 4).take 2)
    let d := digitsVal ((l.drop 6).take 2)
    let h := digitsVal ((l.drop 8).take 2)
    let mi := digitsVal ((l.drop 10).take 2)
    let s := digitsVal ((l.drop 12).take 2)
    if 1 ≤ y ∧ 1 ≤ mo ∧ mo ≤ 12 ∧ 1 ≤ d ∧ d ≤ daysInMonth y mo
        ∧ h ≤ 23 ∧ mi ≤ 59 ∧ s ≤ 59 then
      some ⟨y, mo, d, h, mi, s⟩
    else none
  else none

/-- `strftime("%Y%m%d%H%M%S")`: zero-padded two-digit rendering. -/
def pad2 (n : Nat) : String :=
  if n < 10 then "0" ++ toString n else toString n

/-- `strftime("%Y%m%d%H%M%S")`: zero-padded four-digit rendering. -/
def pad4 (n : Nat) : String :=
  if n < 10 then "000" ++ toString n
  else if n < 100 then "00" ++ toString n
  else if n < 1000 then "0" ++ toString n
  else toString n

/-- Model of `value.strftime(URL_DATE_FORMAT)` with
`URL_DATE_FORMAT = "%Y%m%d%H%M%S"`. -/
def formatTimestamp14 (t : PyDateTime) : String :=
  pad4 t.year ++ pad2 t.month ++ pad2 t.day ++ pad2 t.hour ++ pad2 t.minute ++ pad2 t.second

/-! ## Memento URL parsing (internetarchive.py lines 70-148) -/

/-- Errors that can escape the modelled `get_memento`: Python `ValueError`
(from `split_memento_url` or `strptime`), `MementoPlaybackError`,
`requests.exceptions.HTTPError` (from `raise_for_status`), and a fuel
marker standing for nontermination of the redirect loop (never reached at
the fuel levels used below). -/
inductive FetchError where
  | valueError (msg : String)
  | playbackError (msg : String)
  | httpError (status : Nat)
  | noFuel
deriving DecidableEq

/-- Model of `MEMENTO_URL_PATTERN.match` followed by group extraction
(`split_memento_url`, lines 100-106): the pattern
`^http(s)?://web.archive.org/web/(\d+)(?:id_)?/(.+)$` with the dots of the
host read literally (the match is anchored and deterministic: the digit
group cannot overlap the optional `id_`). Returns `(raw_url, timestamp)`
on success. -/
def splitMementoUrlChars (l : List Char) : Option (List Char × List Char) :=
  let afterScheme :=
    if l.take 27 = "http://web.archive.org/web/".data then
      some (l.drop 27)
    else if l.take 28 = "https://web.archive.org/web/".data then
      some (l.drop 28)
    else none
  match afterScheme with
  | none => none
  | some rest =>
    let ds := rest.takeWhile Char.isDigit
    if ds = [] then none
    else
      let rest2 := rest.drop ds.length
      let rest3 := if rest2.take 3 = "id_".data then rest2.drop 3 else rest2
      match rest3 with
      | '/' :: tail => if tail = [] then none else some (tail, ds)
      | _ => none

/-- Model of `split_memento_url` (lines 100-106), raising `ValueError` with
the message used by the source when the pattern does not match. -/
def split_memento_url (l : List Char) : Except FetchError (List Char × List Char) :=
  match splitMementoUrlChars l with
  | some p => .ok p
  | none =>
    .error (.valueError ("\"" ++ String.mk l ++ "\" is not a memento URL"))

/-- One hexadecimal digit, as understood by `urllib.parse.unquote`. -/
def hexDigitVal (c : Char) : Option Nat :=
  if c.isDigit then some (c.toNat - 48)
  else if 'a' ≤ c ∧ c ≤ 'f' then some (c.toNat - 87)
  else if 'A' ≤ c ∧ c ≤ 'F' then some (c.toNat - 55)
  else none

/-- Model of `urllib.parse.unquote` on the single-byte range: each valid
`%XX` escape is decoded, invalid escapes are left as-is. (Multi-byte UTF-8
sequences do not occur in the inputs considered here.) -/
def percentDecode : List Char → List Char
  | '%' :: a :: b :: rest =>
    match hexDigitVal a, hexDigitVal b with
    | some x, some y => Char.ofNat (16 * x + y) :: percentDecode rest
    | _, _ => '%' :: percentDecode (a :: b :: rest)
  | c :: rest => c :: percentDecode rest
  | [] => []
  termination_by l => l.length
  decreasing_by all_goals simp_arith

/-- Model of `clean_memento_url_component` (lines 109-116): percent-decode
only when the lowercased URL starts with `http%3a` or `https%3a`. -/
def clean_memento_url_component (l : List Char) : List Char :=
  let lower := l.map Char.toLower
  if lower.take 7 = "http%3a".data ∨ lower.take 8 = "https%3a".data then
    percentDecode l
  else l

/-- Model of `memento_url_data` (lines 119-134): split the memento URL,
clean the raw URL component, and strictly parse the timestamp. -/
def memento_url_data (l : List Char) :
    Except FetchError (List Char × PyDateTime) := do
  let (raw, ts) ← split_memento_url l
  match parseTimestamp14 ts with
  | some d => .ok (clean_memento_url_component raw, d)
  | none =>
    .error (.valueError ("time data \"" ++ String.mk ts
      ++ "\" does not match format \"%Y%m%d%H%M%S\""))

/-- Model of `original_url_for_memento` (lines 137-148). -/
def original_url_for_memento (l : List Char) : Except FetchError (List Char) := do
  let (raw, _) ← split_memento_url l
  .ok (clean_memento_url_component raw)

/-! ## WaybackClient.get_memento (internetarchive.py lines 550-644)

The HTTP layer is modelled as a total function `world` from request URL to
response (redirect following is disabled in the source, so each request is
a single fetch; the session retry layer is orthogonal to the redirect
logic modelled here). -/

/-- Model of `requests.Response.ok`: true exactly when `raise_for_status`
would not raise, i.e. the status is outside `[400, 600)`. -/
def responseOk (r : HttpResponse) : Bool :=
  if 400 ≤ r.status ∧ r.status < 600 then false else true

/-- Model of `response.raise_for_status()`: raise `HTTPError` for a status
in `[400, 600)`, otherwise do nothing. -/
def raise_for_status (r : HttpResponse) : Except FetchError Unit :=
  if 400 ≤ r.status ∧ r.status < 600 then .error (.httpError r.status) else .ok ()

/-- Python truthiness of `response.headers.get(...)`: a present, non-empty
string. -/
def truthyOpt (o : Option String) : Bool :=
  match o with
  | some s => s ≠ ""
  | none => false

/-- Case-insensitive equality of character lists, the ASCII model of
`current_url.casefold() == target_url.casefold()` (line 619). -/
def casefoldEqChars (a b : List Char) : Bool :=
  a.map Char.toLower == b.map Char.toLower

/-- The `playable` computation of `get_memento` (lines 615-620): when the
previous response was a memento and this response redirects onward, the
response is acceptable exactly when the original URL of its URL equals the
original URL of the redirect target case-insensitively and the target capture
date passes the (buggy, `.seconds`-based) window check. `ValueError` from
the URL parsing propagates. -/
def computePlayable (origDate : PyDateTime) (window : Nat) (prev : Bool)
    (r : HttpResponse) : Except FetchError Bool :=
  match prev, r.nextUrl with
  | true, some nxt => do
    let current ← original_url_for_memento r.url.data
    let (target, targetDate) ← memento_url_data nxt.data
    pure (casefoldEqChars current target && mementoWindowCheck targetDate origDate window)
  | _, _ => pure false

/-- The non-memento branch of the `get_memento` loop body (lines 611-629):
for a response without `Memento-Datetime`, either accept it as playable,
or fail via the runtime-error header, a generic `MementoPlaybackError`
for an ok status, or `raise_for_status`. -/
def checkNonMemento (requestUrl : String) (origDate : PyDateTime) (window : Nat)
    (prev : Bool) (r : HttpResponse) : Except FetchError Unit :=
  if hasHeader r.headers "Memento-Datetime" then .ok ()
  else do
    let playable ← computePlayable origDate window prev r
    if playable then .ok ()
    else
      let message := headerGet r.headers "X-Archive-Wayback-Runtime-Error"
      if truthyOpt message then
        .error (.playbackError ("Memento at " ++ requestUrl
          ++ " could not be played: " ++ message.getD ""))
      else if responseOk r then
        .error (.playbackError ("Memento at " ++ requestUrl ++ " could not be played"))
      else
        raise_for_status r

/-- The `MementoPlaybackError` message for a circular redirect chain
(line 636). -/
def circularMessage (requestUrl : String) : String :=
  "Memento at " ++ requestUrl ++ " is circular"

/-- The redirect-following loop of `get_memento` (lines 608-644): check the
current response, then either stop (no onward redirect), fail on a
circular redirect (the visited set `urls` gains `response.url` before the
check), or follow the redirect. `fuel` bounds the number of iterations and
only models nontermination of the source loop on worlds with unboundedly
many distinct URLs. -/
def getMementoFollow (world : String → HttpResponse) (requestUrl : String)
    (origDate : PyDateTime) (window : Nat) :
    Nat → List HttpResponse → List String → Bool → HttpResponse →
    Except FetchError (HttpResponse × List HttpResponse)
  | 0, _, _, _, _ => .error .noFuel
  | fuel + 1, history, urls, prev, response => do
    checkNonMemento requestUrl origDate window prev response
    match response.nextUrl with
    | some nxt =>
      let urls2 := response.url :: urls
      if urls2.contains nxt then
        .error (.playbackError (circularMessage requestUrl))
      else
        getMementoFollow world requestUrl origDate window fuel
          (history ++ [response]) urls2
          (hasHeader response.headers "Memento-Datetime") (world nxt)
    | none => .ok (response, history)

/-- Model of `WaybackClient.get_memento`: parse the requested memento URL
(the parsed original URL is bound to a never-used variable in the source),
fetch it, and run the redirect-following loop. Returns the final response
and the accumulated history. -/
def get_memento (world : String → HttpResponse) (url : String)
    (window fuel : Nat) : Except FetchError (HttpResponse × List HttpResponse) := do
  let (_origUrl, origDate) ← memento_url_data url.data
  getMementoFollow world url origDate window fuel [] [] false (world url)

/-! ## Worker error accounting (cli.py lines 93-123)

The contribution of one record to the worker summary in
`load_wayback_records_worker`, by the except-clause that catches its
outcome: success, `MementoPlaybackError` → `playback`, HTTP 404 →
`missing`, other HTTP errors → `unknown`, and any other exception
(including `ValueError`) → `unknown`. -/

/-- Apply the per-record try/except accounting of the worker to a fetch outcome. -/
def record_result_summary (outcome : Except FetchError (HttpResponse × List HttpResponse))
    (s : WorkerSummary) : WorkerSummary :=
  match outcome with
  | .ok _ => { s with success := s.success + 1 }
  | .error (.playbackError _) => { s with playback := s.playback + 1 }
  | .error (.httpError code) =>
    if code = 404 then { s with missing := s.missing + 1 }
    else { s with unknown := s.unknown + 1 }
  | .error (.valueError _) => { s with unknown := s.unknown + 1 }
  | .error .noFuel => { s with unknown := s.unknown + 1 }

/-! ## CDX query construction (internetarchive.py lines 386-409) -/

/-- A value appearing in the `query` dict of `WaybackClient.search`, by the
type tests the source performs on it. -/
inductive CdxParamValue where
  | str (s : String)
  | date (t : PyDateTime)
  | int (i : Int)
  | bool (b : Bool)

/-- Wire rendering of one query value (lines 403-409): strings verbatim,
datetimes through `strftime(URL_DATE_FORMAT)`, anything else through
`str(value).lower()` — for ints the lowercasing is the identity, and for
bools it yields `true` / `false`. -/
def formatCdxValue : CdxParamValue → String
  | .str s => s
  | .date t => formatTimestamp14 t
  | .int i => toString i
  | .bool b => if b then "true" else "false"

set_option linter.unusedVariables false in
/-- Model of the `query` dict literal (lines 386-392) and the `final_query`
loop (lines 398-409) of `WaybackClient.search`, for calls without extra
`**kwargs`: `None` values are dropped and the rest are rendered. The
source binds the wire key `pageSize` to the `page` argument
(line 392: `"pageSize": page`), so the `pageSize` argument is unused. -/
def buildCdxQuery (url : String) (matchType : Option String)
    (limit offset : Option Int) (fastLatest gzip : Option Bool)
    (from_date to_date : Option PyDateTime) (filter_field collapse : Option String)
    (showResumeKey : Bool) (resumeKey : Option String)
    (page pageSize : Option Int) (resolveRevisits : Bool) :
    List (String × String) :=
  let query : List (String × Option CdxParamValue) := [
    ("url", some (.str url)),
    ("matchType", matchType.map .str),
    ("limit", limit.map .int),
    ("offset", offset.map .int),
    ("gzip", gzip.map .bool),
    ("from", from_date.map .date),
    ("to", to_date.map .date),
    ("filter", filter_field.map .str),
    ("fastLatest", fastLatest.map .bool),
    ("collapse", collapse.map .str),
    ("showResumeKey", some (.bool showResumeKey)),
    ("resumeKey", resumeKey.map .str),
    ("resolveRevisits", some (.bool resolveRevisits)),
    ("page", page.map .int),
    ("pageSize", page.map .int)]
  query.filterMap (fun kv => kv.2.map (fun v => (kv.1, formatCdxValue v)))

/-! ## Spec-side helpers and concrete instances used by the theorems -/

/-- Two version documents differing in hash; the relation under which the
uploader-side stream is destuttered per page. -/
def hashDiffers (v w : VersionDoc) : Prop :=
  v.version_hash ≠ w.version_hash

instance : DecidableRel hashDiffers :=
  fun v w => inferInstanceAs (Decidable (v.version_hash ≠ w.version_hash))

/-- Reference recursion for the per-page behaviour of the duplicate filter:
keep a document exactly when its hash differs from the previously kept one
(`last`, `none` before the first). -/
def yieldedFrom (last : Option String) : List VersionDoc → List VersionDoc
  | [] => []
  | v :: rest =>
    if last ≠ some v.version_hash then
      v :: yieldedFrom (some v.version_hash) rest
    else
      yieldedFrom last rest

/-- A transport whose every attempt raises `ReadTimeoutError` (retryable
and handleable). -/
def alwaysReadTimeout : Nat → AttemptOutcome :=
  fun _ => .failure .readTimeout

/-- A transport whose every attempt raises an error outside
`handleable_errors`. -/
def alwaysOtherError : Nat → AttemptOutcome :=
  fun _ => .failure (.other "boom")

/-- A transport whose every attempt yields a plain 503 response without a
`Memento-Datetime` header. -/
def always503 : Nat → AttemptOutcome :=
  fun _ => .success ⟨"http://web.archive.org/x", 503, [], none⟩

/-- A 503 response that carries a `Memento-Datetime` header: an archived
capture of an error page. -/
def memento503 : HttpResponse :=
  ⟨"http://web.archive.org/y", 503,
    [("Memento-Datetime", "Wed, 01 Jan 2020 00:00:00 GMT")], none⟩

/-- A transport whose every attempt yields `memento503`. -/
def memento503Transport : Nat → AttemptOutcome :=
  fun _ => .success memento503

/-- Requested memento URL for the redirect-window scenario: a capture of
`http://a/` on 2020-01-01. -/
def c1Url0 : String :=
  "http://web.archive.org/web/20200101000000id_/http://a/"

/-- Intermediate URL: the non-memento redirect for `http://a/` dated
2020-01-03, two days after the requested capture. -/
def c1Url1 : String :=
  "http://web.archive.org/web/20200103000000/http://a/"

/-- Redirect target: the raw capture of `http://a/` dated 2020-01-03. -/
def c1Url2 : String :=
  "http://web.archive.org/web/20200103000000id_/http://a/"

/-- The initial response: a memento redirect pointing at `c1Url1`. -/
def c1Resp0 : HttpResponse :=
  ⟨c1Url0, 301, [("Memento-Datetime", "Wed, 01 Jan 2020 00:00:00 GMT")], some c1Url1⟩

/-- The intermediate response: not a memento, redirecting onward to a
capture two days away from the requested date. -/
def c1Resp1 : HttpResponse :=
  ⟨c1Url1, 302, [], some c1Url2⟩

/-- The final response: a memento without an onward redirect. -/
def c1Resp2 : HttpResponse :=
  ⟨c1Url2, 200, [("Memento-Datetime", "Fri, 03 Jan 2020 00:00:00 GMT")], none⟩

/-- The world serving the three responses above. -/
def c1World : String → HttpResponse :=
  fun s => if s == c1Url1 then c1Resp1 else if s == c1Url2 then c1Resp2 else c1Resp0

/-- Memento URL A of the circular chain A → B → A. -/
def c4UrlA : String :=
  "http://web.archive.org/web/20200101000000id_/http://a/"

/-- Memento URL B of the circular chain A → B → A. -/
def c4UrlB : String :=
  "http://web.archive.org/web/20200101000000id_/http://b/"

/-- Memento redirect at A pointing to B. -/
def c4RespA : HttpResponse :=
  ⟨c4UrlA, 302, [("Memento-Datetime", "Wed, 01 Jan 2020 00:00:00 GMT")], some c4UrlB⟩

/-- Memento redirect at B pointing back to A. -/
def c4RespB : HttpResponse :=
  ⟨c4UrlB, 302, [("Memento-Datetime", "Wed, 01 Jan 2020 00:00:00 GMT")], some c4UrlA⟩

/-- The world serving the circular chain. -/
def c4World : String → HttpResponse :=
  fun s => if s == c4UrlB then c4RespB else c4RespA

/-! ## Theorems -/

theorem takeWhile_takeWhile_eq (p q : Char → Bool) (l : List Char) :
    (l.takeWhile p).takeWhile q = l.takeWhile (fun c => p c && q c) := by
  induction l with
  | nil => rfl
  | cons c t ih =>
    simp only [List.takeWhile_cons]
    cases hp : p c with
    | false => simp
    | true =>
      cases hq : q c with
      | false => simp [List.takeWhile_cons, hq]
      | true => simp [List.takeWhile_cons, hq, ih]

theorem takeWhile_append_head_stop (p : Char → Bool) (a b : List Char)
    (hb : ∀ c, b.head? = some c → p c = false) :
    (a ++ b).takeWhile p = a.takeWhile p := by
  induction a with
  | nil =>
    cases b with
    | nil => rfl
    | cons c t => simp [List.takeWhile_cons, hb c rfl]
  | cons c t ih =>
    simp only [List.cons_append, List.takeWhile_cons]
    cases hp : p c with
    | false => rfl
    | true => simp [ih]

theorem roughUrlKeyChars_append (u q : List Char)
    (h : q.head? = some '?' ∨ q.head? = some '#') :
    roughUrlKeyChars (u ++ q) = roughUrlKeyChars u := by
  unfold roughUrlKeyChars beforeFirst
  rw [List.map_append, takeWhile_takeWhile_eq, takeWhile_takeWhile_eq,
    takeWhile_append_head_stop]
  intro c hc
  cases q with
  | nil => rcases h with h | h <;> exact absurd h (by simp)
  | cons c0 t =>
    simp only [List.map_cons, List.head?_cons, Option.some.injEq] at hc h
    rcases h with h | h <;> subst h <;> rw [← hc] <;> decide

/-- C6 (counterexample): `rough_url_key` is not idempotent. On the key
`index/` one application strips the trailing slash and yields `index`, but
a second application then matches `index(\.\w+)?$` and yields the empty
string, because the source strips the `index` suffix before stripping the
trailing slash. -/
theorem c6_rough_key_counterexample :
    rough_url_key (rough_url_key "index/") ≠ rough_url_key "index/" := by
  decide

/-- C6 (amended): the second half of the claim holds as stated — for every
URL `u` and every suffix `q` that starts with a question mark or a hash
sign, `rough_url_key (u ++ q) = rough_url_key u` — while the idempotence
half is refuted by `c6_rough_key_counterexample`. -/
theorem c6_rough_key_amended (u q : String)
    (h : q.data.head? = some '?' ∨ q.data.head? = some '#') :
    rough_url_key (u ++ q) = rough_url_key u := by
  obtain ⟨ul⟩ := u
  obtain ⟨ql⟩ := q
  show String.mk (roughUrlKeyChars (ul ++ ql)) = String.mk (roughUrlKeyChars ul)
  exact congrArg String.mk (roughUrlKeyChars_append ul ql h)

/-- C6 (witness for the amended theorem): a concrete query suffix is
stripped. -/
theorem c6_rough_key_amended_witness :
    ("?q=1" : String).data.head? = some '?'
    ∧ rough_url_key ("http://example.com/a" ++ "?q=1") = rough_url_key "http://example.com/a" :=
  ⟨rfl, c6_rough_key_amended "http://example.com/a" "?q=1" (Or.inl rfl)⟩

/-- C7: the first two claimed evaluations hold, but a URL with port 8080 is
not left unchanged: the pattern `^(http://[^:/]+):80(.*)$` also matches
`http://a:8080/x` (the `(.*)` group absorbs the remaining `80/x`), so the
substitution mangles the URL to `http://a80/x`, contradicting the claim
and the evident intent of stripping only redundant default ports. -/
theorem c7_redundant_port_code_bug :
    canonicalize_redundant_port "http://a:80/x" = "http://a/x"
    ∧ canonicalize_redundant_port "https://a:443/?p=:80" = "https://a/?p=:80"
    ∧ canonicalize_redundant_port "http://a:8080/x" = "http://a80/x"
    ∧ "http://a80/x" ≠ "http://a:8080/x" := by
  refine ⟨rfl, rfl, rfl, by decide⟩

theorem yieldedFrom_some_destutterTail (l : List VersionDoc) :
    ∀ b : VersionDoc, b :: yieldedFrom (some b.version_hash) l = List.destutter' hashDiffers b l := by
  induction l with
  | nil => intro b; rfl
  | cons a t ih =>
    intro b
    simp only [yieldedFrom, List.destutter'_cons]
    have hcond : (some b.version_hash ≠ some a.version_hash) ↔ hashDiffers b a := by
      simp [hashDiffers]
    by_cases hR : hashDiffers b a
    · rw [if_pos (hcond.mpr hR), if_pos hR, ← ih a]
    · rw [if_neg (fun hc => hR (hcond.mp hc)), if_neg hR, ← ih b]

theorem yieldedFrom_none_destutter (l : List VersionDoc) :
    yieldedFrom none l = List.destutter hashDiffers l := by
  cases l with
  | nil => rfl
  | cons v t =>
    rw [List.destutter_cons', ← yieldedFrom_some_destutterTail t v]
    simp [yieldedFrom]

theorem filterUnchangedFrom_filter (P : String) (l : List VersionDoc) :
    ∀ m : List (String × String),
      (filterUnchangedFrom m l).filter (fun v => v.page_url == P)
        = yieldedFrom (dictGet P m) (l.filter (fun v => v.page_url == P)) := by
  induction l with
  | nil => intro m; rfl
  | cons v t ih =>
    intro m
    by_cases hP : v.page_url = P
    · have hPb : (v.page_url == P) = true := by simp [hP]
      by_cases hy : dictGet v.page_url m ≠ some v.version_hash
      · rw [show filterUnchangedFrom m (v :: t)
            = v :: filterUnchangedFrom ((v.page_url, v.version_hash) :: m) t from
            by rw [filterUnchangedFrom, if_pos hy]]
        rw [List.filter_cons, List.filter_cons, if_pos hPb, if_pos hPb, ih]
        have hg : dictGet P ((v.page_url, v.version_hash) :: m) = some v.version_hash := by
          rw [show dictGet P ((v.page_url, v.version_hash) :: m)
              = if v.page_url = P then some v.version_hash else dictGet P m from rfl,
            if_pos hP]
        rw [hg, yieldedFrom, if_pos (by rw [← hP]; exact hy)]
      · rw [show filterUnchangedFrom m (v :: t) = filterUnchangedFrom m t from
            by rw [filterUnchangedFrom, if_neg hy]]
        rw [List.filter_cons, if_pos hPb, ih, yieldedFrom,
          if_neg (by rw [← hP]; exact hy)]
    · have hPb : ¬((v.page_url == P) = true) := by simp [hP]
      by_cases hy : dictGet v.page_url m ≠ some v.version_hash
      · rw [show filterUnchangedFrom m (v :: t)
            = v :: filterUnchangedFrom ((v.page_url, v.version_hash) :: m) t from
            by rw [filterUnchangedFrom, if_pos hy]]
        rw [List.filter_cons, List.filter_cons, if_neg hPb, if_neg hPb, ih]
        have hg : dictGet P ((v.page_url, v.version_hash) :: m) = dictGet P m := by
          rw [show dictGet P ((v.page_url, v.version_hash) :: m)
              = if v.page_url = P then some v.version_hash else dictGet P m from rfl,
            if_neg hP]
        rw [hg]
      · rw [show filterUnchangedFrom m (v :: t) = filterUnchangedFrom m t from
            by rw [filterUnchangedFrom, if_neg hy]]
        rw [List.filter_cons, if_neg hPb, ih]

/-- C9: under `skip_unchanged=resolved-response`, the uploader-side filter
restricted to any one `page_url` equals the greedy destuttering of the
input restricted to that page by hash inequality — so it yields every item
whose hash differs from the last hash yielded for its page (never dropping
a distinct hash) — consequently the hashes of consecutive yielded items of
one page are pairwise different, and the concrete input
(P,H1),(P,H1),(P,H2),(P,H2),(P,H1) yields exactly (P,H1),(P,H2),(P,H1). -/
theorem c9_resolved_response_filter (input : List VersionDoc) (P : String) :
    ((filter_unchanged_versions input).filter (fun v => v.page_url == P)
      = List.destutter hashDiffers (input.filter (fun v => v.page_url == P)))
    ∧ (((filter_unchanged_versions input).filter (fun v => v.page_url == P)).map
        (fun v => v.version_hash)).Chain' (· ≠ ·)
    ∧ filter_unchanged_versions
        [⟨"P", "H1"⟩, ⟨"P", "H1"⟩, ⟨"P", "H2"⟩, ⟨"P", "H2"⟩, ⟨"P", "H1"⟩]
      = [⟨"P", "H1"⟩, ⟨"P", "H2"⟩, ⟨"P", "H1"⟩] := by
  have h1 : (filter_unchanged_versions input).filter (fun v => v.page_url == P)
      = List.destutter hashDiffers (input.filter (fun v => v.page_url == P)) := by
    rw [show filter_unchanged_versions input = filterUnchangedFrom [] input from rfl,
      filterUnchangedFrom_filter P input [],
      show dictGet P [] = none from rfl, yieldedFrom_none_destutter]
  refine ⟨h1, ?_, by decide⟩
  rw [List.chain'_map, h1]
  exact List.destutter_is_chain' hashDiffers _

/-- C10: `merge_worker_summaries` is total on every list of summaries —
when the merged `total` is 0 every percentage field is 0 with no division
performed, and when `total` is nonzero each percentage field equals the
corresponding counter divided by `total`. -/
theorem c10_merge_percentages (ss : List WorkerSummary) :
    ((merge_worker_summaries ss).total = 0 →
      (merge_worker_summaries ss).success_pct = 0
      ∧ (merge_worker_summaries ss).playback_pct = 0
      ∧ (merge_worker_summaries ss).missing_pct = 0
      ∧ (merge_worker_summaries ss).unknown_pct = 0)
    ∧ ((merge_worker_summaries ss).total ≠ 0 →
      (merge_worker_summaries ss).success_pct
          = ((merge_worker_summaries ss).success : ℚ) / ((merge_worker_summaries ss).total : ℚ)
      ∧ (merge_worker_summaries ss).playback_pct
          = ((merge_worker_summaries ss).playback : ℚ) / ((merge_worker_summaries ss).total : ℚ)
      ∧ (merge_worker_summaries ss).missing_pct
          = ((merge_worker_summaries ss).missing : ℚ) / ((merge_worker_summaries ss).total : ℚ)
      ∧ (merge_worker_summaries ss).unknown_pct
          = ((merge_worker_summaries ss).unknown : ℚ) / ((merge_worker_summaries ss).total : ℚ)) := by
  unfold merge_worker_summaries
  split
  next h => exact ⟨fun h0 => absurd h0 h, fun _ => ⟨rfl, rfl, rfl, rfl⟩⟩
  next h => exact ⟨fun _ => ⟨rfl, rfl, rfl, rfl⟩, fun h0 => absurd (not_not.mp h) h0⟩

/-- C10 (witness): both branches at concrete inputs — a singleton list with
total 4, and the empty list with total 0. -/
theorem c10_merge_percentages_witness :
    ((merge_worker_summaries [⟨4, 2, 1, 1, 0⟩]).success_pct
        = ((merge_worker_summaries [⟨4, 2, 1, 1, 0⟩]).success : ℚ)
          / ((merge_worker_summaries [⟨4, 2, 1, 1, 0⟩]).total : ℚ))
    ∧ (merge_worker_summaries []).success_pct = 0 :=
  ⟨((c10_merge_percentages [⟨4, 2, 1, 1, 0⟩]).2 (by decide)).1,
    ((c10_merge_percentages []).1 (by decide)).1⟩

theorem goTrace_attempt_count (b : Nat) :
    ∀ left r, (goTrace b r left).countP isAttemptEvent = left + 1 := by
  intro left
  induction left with
  | zero => intro r; rfl
  | succ n ih =>
    intro r
    by_cases hr : 0 < r
    · simp [goTrace, if_pos hr, List.countP_cons, List.countP_append,
        isAttemptEvent, sleepSeconds, ih]
    · simp [goTrace, if_neg hr, List.countP_cons, isAttemptEvent, ih]

theorem goTrace_sleeps_list (b : Nat) :
    ∀ left r, 1 ≤ r →
      (goTrace b r left).filterMap sleepSeconds
        = (List.range left).map (fun j => b * 2 ^ (r + j - 1)) := by
  intro left
  induction left with
  | zero => intro r _; rfl
  | succ n ih =>
    intro r hr
    simp only [goTrace, if_pos (by omega : 0 < r), List.filterMap_cons,
      List.filterMap_append, List.filterMap_nil, List.nil_append,
      List.singleton_append, sleepSeconds]
    rw [ih (r + 1) (by omega), List.range_succ_eq_map, List.map_cons, List.map_map]
    congr 1
    apply List.map_congr_left
    intro j _
    simp only [Function.comp_apply]
    congr 2
    omega

theorem sendGo_retry_success_trace (t : Nat → AttemptOutcome) (b : Nat)
    (H : ∀ i, ∃ r, t i = .success r ∧ should_retry r = true) :
    ∀ left retries, (sendGo t b left retries).2 = goTrace b retries left := by
  intro left
  induction left with
  | zero =>
    intro retries
    obtain ⟨r, ht, _⟩ := H retries
    simp [sendGo, ht, goTrace]
  | succ n ih =>
    intro retries
    obtain ⟨r, ht, hsr⟩ := H retries
    simp [sendGo, ht, hsr, goTrace, ih]

theorem sendGo_retry_failure_run (t : Nat → AttemptOutcome) (b : Nat)
    (H : ∀ i, ∃ e, t i = .failure e ∧ isHandleableError e = true ∧ should_retry_error e = true) :
    ∀ left retries elast, t (retries + left) = .failure elast →
      sendGo t b left retries = (.retryError (retries + left) 0 elast, goTrace b retries left) := by
  intro left
  induction left with
  | zero =>
    intro retries elast hl
    rw [Nat.add_zero] at hl
    obtain ⟨e, ht, hh, _⟩ := H retries
    rw [ht] at hl
    cases hl
    simp [sendGo, ht, hh, goTrace]
  | succ n ih =>
    intro retries elast hl
    obtain ⟨e, ht, hh, hre⟩ := H retries
    have hl2 : t ((retries + 1) + n) = .failure elast := by
      rw [show (retries + 1) + n = retries + (n + 1) from by omega]
      exact hl
    have hrec := ih (retries + 1) elast hl2
    simp [sendGo, ht, hh, hre, goTrace, hrec]
    omega

/-- C2: for a request whose every attempt yields a response with a status
in the retryable set and no `Memento-Datetime` header, `send` performs
exactly `retries + 1` attempts (numbered 0 through `retries`), and the
event trace equals `exhaustedTrace`: by `goTrace`, no sleep falls between
attempt 0 and attempt 1, and a sleep of `backoff * 2 ^ (k - 1)` seconds
falls between attempt `k` and attempt `k + 1` for every `k ≥ 1` — the
sleeps in order being `backoff * 2 ^ j` for `j = 0, …, retries - 2`. -/
theorem c2_retry_schedule (t : Nat → AttemptOutcome) (maximum backoff : Nat)
    (H : ∀ i, ∃ r, t i = .success r
      ∧ hasHeader r.headers "Memento-Datetime" = false
      ∧ retryable_statuses.contains r.status = true) :
    (waybackSend t maximum backoff).2 = exhaustedTrace maximum backoff
    ∧ (waybackSend t maximum backoff).2.countP isAttemptEvent = maximum + 1
    ∧ (waybackSend t maximum backoff).2.filterMap sleepSeconds
        = (List.range (maximum - 1)).map (fun j => backoff * 2 ^ j) := by
  have H2 : ∀ i, ∃ r, t i = .success r ∧ should_retry r = true := by
    intro i
    obtain ⟨r, ht, hh, hs⟩ := H i
    exact ⟨r, ht, by rw [should_retry, hh, if_neg (by simp), hs]⟩
  have htr : (waybackSend t maximum backoff).2 = exhaustedTrace maximum backoff :=
    sendGo_retry_success_trace t backoff H2 maximum 0
  refine ⟨htr, ?_, ?_⟩
  · rw [htr]
    exact goTrace_attempt_count backoff maximum 0
  · rw [htr]
    cases maximum with
    | zero => rfl
    | succ m =>
      show (goTrace backoff 0 (m + 1)).filterMap sleepSeconds = _
      rw [show goTrace backoff 0 (m + 1)
          = .attempt 0 :: ([] ++ goTrace backoff 1 m) from rfl]
      simp only [List.nil_append, List.filterMap_cons, sleepSeconds]
      rw [goTrace_sleeps_list backoff m 1 (by omega)]
      apply List.map_congr_left
      intro j _
      congr 2
      omega

/-- C2 (witness): a transport always answering a plain 503, with 3 retries
and backoff 2: four attempts, no sleep before the first retry, then sleeps
of 2 and 4 seconds. -/
theorem c2_retry_schedule_witness :
    (waybackSend always503 3 2).2
      = [.attempt 0, .attempt 1, .sleep 2, .attempt 2, .sleep 4, .attempt 3] := by
  have h := c2_retry_schedule always503 3 2
    (fun _ => ⟨⟨"http://web.archive.org/x", 503, [], none⟩, rfl, rfl, rfl⟩)
  rw [h.1]
  rfl

/-- C8: a response carrying a `Memento-Datetime` header is returned from
the first attempt with no retry and no sleep, whatever its status code. -/
theorem c8_memento_not_retried (t : Nat → AttemptOutcome) (maximum backoff : Nat)
    (r : HttpResponse) (h1 : t 0 = .success r)
    (h2 : hasHeader r.headers "Memento-Datetime" = true) :
    waybackSend t maximum backoff = (.response r, [.attempt 0]) := by
  have hs : should_retry r = false := by rw [should_retry, h2, if_pos rfl]
  cases maximum with
  | zero => simp [waybackSend, sendGo, h1]
  | succ m => simp [waybackSend, sendGo, h1, hs]

/-- C8 (witness): the 503 memento response — status in the retryable set —
is returned on the first attempt. -/
theorem c8_memento_not_retried_witness :
    retryable_statuses.contains memento503.status = true
    ∧ waybackSend memento503Transport 5 2 = (.response memento503, [.attempt 0]) :=
  ⟨by decide, c8_memento_not_retried memento503Transport 5 2 memento503 rfl (by decide)⟩

/-- C5 (counterexample): with `retries = 2` and `backoff = 2` and every
attempt raising a retryable `ReadTimeoutError`, `send` makes 3 attempts
and sleeps 2 seconds in total, yet the raised `WaybackRetryError` carries
`retries = 2` (not the attempt count 3) and `total_time = 0` (not the
elapsed seconds): the source never updates `total_time`. -/
theorem c5_retry_exhausted_counterexample :
    (waybackSend alwaysReadTimeout 2 2).1 = .retryError 2 0 .readTimeout
    ∧ (waybackSend alwaysReadTimeout 2 2).2.countP isAttemptEvent = 3
    ∧ ((waybackSend alwaysReadTimeout 2 2).2.filterMap sleepSeconds).sum = 2
    ∧ (2 : Nat) ≠ 3
    ∧ (0 : Nat) ≠ 2 := by
  refine ⟨rfl, rfl, rfl, by decide, by decide⟩

/-- C5 (amended): exhausting the budget on handleable, retryable transport
errors raises `WaybackRetryError` carrying the retry count `maximum` (one
less than the `maximum + 1` attempts made), a total-time field that is
always 0 (elapsed time is never accumulated in the source), and the causal
error of the final attempt; a non-handleable error propagates unwrapped
from its attempt. -/
theorem c5_retry_exhausted_amended (t u : Nat → AttemptOutcome)
    (maximum backoff : Nat) (elast : TransportError)
    (hl : t maximum = .failure elast)
    (H : ∀ i, ∃ e, t i = .failure e ∧ isHandleableError e = true
      ∧ should_retry_error e = true)
    (e0 : TransportError) (hu : u 0 = .failure e0)
    (hne : isHandleableError e0 = false) :
    waybackSend t maximum backoff
        = (.retryError maximum 0 elast, exhaustedTrace maximum backoff)
    ∧ (exhaustedTrace maximum backoff).countP isAttemptEvent = maximum + 1
    ∧ (waybackSend u maximum backoff).1 = .raised e0 := by
  refine ⟨?_, goTrace_attempt_count backoff maximum 0, ?_⟩
  · have := sendGo_retry_failure_run t backoff H maximum 0 elast
      (by rw [Nat.zero_add]; exact hl)
    rw [waybackSend, this, Nat.zero_add]
    rfl
  · cases maximum with
    | zero => simp [waybackSend, sendGo, hu, hne]
    | succ m => simp [waybackSend, sendGo, hu, hne]

/-- C5 (witness for the amended theorem): concrete runs of both halves. -/
theorem c5_retry_exhausted_amended_witness :
    waybackSend alwaysReadTimeout 2 2
        = (.retryError 2 0 .readTimeout, exhaustedTrace 2 2)
    ∧ (exhaustedTrace 2 2).countP isAttemptEvent = 2 + 1
    ∧ (waybackSend alwaysOtherError 2 2).1 = .raised (.other "boom") :=
  c5_retry_exhausted_amended alwaysReadTimeout alwaysOtherError 2 2 .readTimeout rfl
    (fun _ => ⟨.readTimeout, rfl, rfl, rfl⟩) (.other "boom") rfl rfl

/-- C3: the wire parameter `pageSize` does not carry the caller-supplied
`pageSize` value: the source builds the query with `pageSize: page`
(internetarchive.py line 392), so with `pageSize=5` and no `page` the wire
query has no `pageSize` at all, and with `page=2, pageSize=5` the wire
`pageSize` is `2`. -/
theorem c3_pagesize_code_bug :
    dictGet "pageSize" (buildCdxQuery "x" none none none none none none none
        none none true none none (some 5) true) = none
    ∧ dictGet "pageSize" (buildCdxQuery "x" none none none none none none none
        none none true none (some 2) (some 5) true) = some "2"
    ∧ (some "2" : Option String) ≠ some "5" := by
  refine ⟨rfl, rfl, by decide⟩

/-- C1: the redirect-window acceptance is not the claimed
`|target_date - original_date| <= redirect_target_window`: the source
compares `abs(target_date - original_date).seconds`, the seconds component
of the timedelta (the difference modulo 86400). On a chain whose
non-memento hop redirects to a capture of the same URL exactly two days
(172800 s > 43200 s) after the requested date, the fetcher accepts the hop
and returns the final memento instead of raising `MementoPlaybackError`. -/
theorem c1_redirect_window_code_bug :
    get_memento c1World c1Url0 redirect_target_window_default 10
        = .ok (c1Resp2, [c1Resp0, c1Resp1])
    ∧ memento_url_data c1Url0.data = .ok ("http://a/".data, ⟨2020, 1, 1, 0, 0, 0⟩)
    ∧ memento_url_data c1Url2.data = .ok ("http://a/".data, ⟨2020, 1, 3, 0, 0, 0⟩)
    ∧ (dtToSeconds ⟨2020, 1, 3, 0, 0, 0⟩ - dtToSeconds ⟨2020, 1, 1, 0, 0, 0⟩).natAbs = 172800
    ∧ ¬(172800 ≤ redirect_target_window_default) := by
  refine ⟨rfl, rfl, rfl, by decide, by decide⟩

/-- C4 (counterexample): on the circular chain A → B → A the fetch fails
with `MementoPlaybackError` (there is no separate `CircularMemento` class
in the source), and the worker accounts a `MementoPlaybackError` under
`playback`, not `unknown`: the claimed `unknown` increment does not
happen. -/
theorem c4_circular_counterexample :
    get_memento c4World c4UrlA 43200 10
        = .error (.playbackError (circularMessage c4UrlA))
    ∧ (record_result_summary (get_memento c4World c4UrlA 43200 10) worker_summary).unknown = 0
    ∧ (record_result_summary (get_memento c4World c4UrlA 43200 10) worker_summary).playback = 1 := by
  refine ⟨rfl, rfl, rfl⟩

/-- C4 (amended): whenever the redirect-following loop reaches the
follow step (the non-memento check raised nothing) and the onward target
is already in the visited-URL set (which has just gained the current
response URL), the fetch fails with the circular `MementoPlaybackError`,
and in the worker this failure increments the `playback` counter of the
summary, leaving `unknown` unchanged. -/
theorem c4_circular_amended (world : String → HttpResponse) (requestUrl : String)
    (origDate : PyDateTime) (window fuel : Nat) (history : List HttpResponse)
    (urls : List String) (prev : Bool) (r : HttpResponse) (nxt : String)
    (s : WorkerSummary)
    (hchk : checkNonMemento requestUrl origDate window prev r = .ok ())
    (hnext : r.nextUrl = some nxt)
    (hmem : (r.url :: urls).contains nxt = true) :
    getMementoFollow world requestUrl origDate window (fuel + 1) history urls prev r
        = .error (.playbackError (circularMessage requestUrl))
    ∧ record_result_summary
        (.error (.playbackError (circularMessage requestUrl))) s
        = { s with playback := s.playback + 1 } := by
  constructor
  · show (do
      checkNonMemento requestUrl origDate window prev r
      match r.nextUrl with
      | some nxt =>
        let urls2 := r.url :: urls
        if urls2.contains nxt then
          Except.error (.playbackError (circularMessage requestUrl))
        else
          getMementoFollow world requestUrl origDate window fuel
            (history ++ [r]) urls2
            (hasHeader r.headers "Memento-Datetime") (world nxt)
      | none => Except.ok (r, history)) = _
    rw [hchk]
    show (match r.nextUrl with
      | some nxt =>
        if (r.url :: urls).contains nxt then
          Except.error (FetchError.playbackError (circularMessage requestUrl))
        else
          getMementoFollow world requestUrl origDate window fuel
            (history ++ [r]) (r.url :: urls)
            (hasHeader r.headers "Memento-Datetime") (world nxt)
      | none => Except.ok (r, history)) = _
    rw [hnext]
    show (if (r.url :: urls).contains nxt = true then
        Except.error (FetchError.playbackError (circularMessage requestUrl))
      else
        getMementoFollow world requestUrl origDate window fuel
          (history ++ [r]) (r.url :: urls)
          (hasHeader r.headers "Memento-Datetime") (world nxt)) = _
    rw [if_pos hmem]
  · rfl

/-- C4 (witness for the amended theorem): the second step of the concrete
circular chain, where B redirects back to the already-visited A. -/
theorem c4_circular_amended_witness :
    getMementoFollow c4World c4UrlA ⟨2020, 1, 1, 0, 0, 0⟩ 43200 (8 + 1)
        [c4RespA] [c4UrlA] true c4RespB
        = .error (.playbackError (circularMessage c4UrlA))
    ∧ record_result_summary
        (.error (.playbackError (circularMessage c4UrlA))) worker_summary
        = { worker_summary with playback := worker_summary.playback + 1 } :=
  c4_circular_amended c4World c4UrlA ⟨2020, 1, 1, 0, 0, 0⟩ 43200 8 [c4RespA]
    [c4UrlA] true c4RespB c4UrlA worker_summary rfl rfl (by decide)
